import Mathlib

/-!
Verification of the technical-sniper dashboard core (src/app.py).

The numeric model uses exact rationals for prices and percentages and
integers for calendar-day counts.  Fetched market data (price history,
earnings dates, institutional figures) is passed to each modelled
function as an explicit argument, mirroring the values the network
layer would have produced.
-/

namespace TechnicalSniper

/-- Models Bool test that the list n is an initial segment of the list h,
the building block of the Python substring operator used at
src/app.py lines 72, 101, 113, 123. -/
def startsWith : List Char → List Char → Bool
  | [], _ => true
  | _ :: _, [] => false
  | a :: as, b :: bs => a == b && startsWith as bs

/-- Models substring containment of n in h, the semantics of the Python
expression n in h on strings. -/
def hasSub (n : List Char) : List Char → Bool
  | [] => startsWith n []
  | c :: t => startsWith n (c :: t) || hasSub n t

/-- Models the Python expression sub in s for strings. -/
def pyIn (sub s : String) : Bool := hasSub sub.toList s.toList

/-- Models the guard at src/app.py lines 72, 101, 113, 123:
if a caret or the letters USD occur anywhere in the ticker, the
fundamentals helpers return early. -/
def notApplicable (t : String) : Bool := pyIn "^" t || pyIn "USD" t

/-- Models one step of the adjust=false exponential smoothing used by
pandas ewm(span, adjust=False).mean() at src/app.py lines 59-65. -/
def emaStep (a prev x : ℚ) : ℚ := a * x + (1 - a) * prev

/-- Models the tail of the adjust=false EMA series: s is the smoothed
value already produced for the previous element. -/
def ewmFrom (a s : ℚ) : List ℚ → List ℚ
  | [] => []
  | x :: xs => emaStep a s x :: ewmFrom a (emaStep a s x) xs

/-- Models pandas Series.ewm(alpha, adjust=False).mean(): the first
output equals the first input, later outputs follow the recurrence. -/
def ewm (a : ℚ) : List ℚ → List ℚ
  | [] => []
  | x :: xs => x :: ewmFrom a x xs

/-- Models Series.ewm(span=n, adjust=False).mean() with the pandas
span-to-alpha conversion alpha = 2 / (span + 1). -/
def ewmSpan (span : ℕ) (xs : List ℚ) : List ℚ :=
  ewm (2 / ((span : ℚ) + 1)) xs

/-- The indicator columns added to the price frame by get_stock_data
at src/app.py lines 59-66, one list per column, aligned with Close. -/
structure IndicatorSeries where
  ema20 : List ℚ
  ema50 : List ℚ
  ema200 : List ℚ
  macd : List ℚ
  signal : List ℚ
  hist : List ℚ

/-- Models the indicator block of get_stock_data (src/app.py 59-66):
EMA_20/50/200 from Close, MACD = ewm12(Close) - ewm26(Close),
Signal = ewm9(MACD), Hist = MACD - Signal. -/
def computeIndicators (close : List ℚ) : IndicatorSeries :=
  let e12 := ewmSpan 12 close
  let e26 := ewmSpan 26 close
  let macdLine := List.zipWith (fun a b => a - b) e12 e26
  let signalLine := ewmSpan 9 macdLine
  { ema20 := ewmSpan 20 close
    ema50 := ewmSpan 50 close
    ema200 := ewmSpan 200 close
    macd := macdLine
    signal := signalLine
    hist := List.zipWith (fun a b => a - b) macdLine signalLine }

/-- Models the share-trend computation of get_shares_data at
src/app.py lines 84-96.  The argument shares is the share-count
history sorted oldest to newest (the sort_index result), and
hasInfoShares models the truthiness of info.get from line 95.
With at least two snapshots the code returns the percentage change
from a reference snapshot (four periods back when five or more
snapshots exist, else the oldest) to the latest; otherwise it falls
through to the info check and returns 0.0 or nothing. -/
def get_shares_yoy (shares : List ℚ) (hasInfoShares : Bool) : Option ℚ :=
  if 2 ≤ shares.length then
    let latest := shares.getD (shares.length - 1) 0
    let prev :=
      if 5 ≤ shares.length then shares.getD (shares.length - 5) 0
      else shares.getD 0 0
    some ((latest - prev) / prev * 100)
  else if hasInfoShares then some 0 else none

/-- Models get_shares_data (src/app.py 71-97) including the guard at
line 72: for a not-applicable ticker both results are absent without
touching the fetched data. -/
def get_shares_data (t : String) (shares : List ℚ) (hasInfoShares : Bool) :
    Option (List ℚ) × Option ℚ :=
  if notApplicable t then (none, none)
  else ((if 2 ≤ shares.length then some shares else none),
        get_shares_yoy shares hasInfoShares)

/-- Models get_earnings_date (src/app.py 100-109): the guard at line
101 short-circuits, otherwise the fetched calendar date (abstracted
as a day number) is passed through. -/
def get_earnings_date (t : String) (fetched : Option ℤ) : Option ℤ :=
  if notApplicable t then none else fetched

/-- Models get_smart_money_data (src/app.py 112-119): the guard at
line 113 short-circuits; otherwise the fetched fractions are scaled
to percentages when present. -/
def get_smart_money_data (t : String) (inst shortFrac : Option ℚ) :
    Option ℚ × Option ℚ :=
  if notApplicable t then (none, none)
  else (inst.map (fun v => v * 100), shortFrac.map (fun v => v * 100))

/-- Models get_institutional_holders (src/app.py 122-128): the guard
at line 123 short-circuits; otherwise the fetched table (abstracted
as a list of rows) is returned when present and non-empty. -/
def get_institutional_holders (t : String) (fetched : Option (List String)) :
    Option (List String) :=
  if notApplicable t then none
  else
    match fetched with
    | some df => if df.isEmpty then none else some df
    | none => none

/-- Models pandas df.iloc with a negative index: iloc of minus k is
the element k from the end when k is between 1 and the length, and an
IndexError (absent) otherwise. -/
def ilocNeg (xs : List ℚ) (k : ℕ) : Option ℚ :=
  if 1 ≤ k ∧ k ≤ xs.length then some (xs.getD (xs.length - k) 0) else none

/-- Outcome of the single-ticker price block at src/app.py 248-253:
noData when the fetch produced no frame (line 377 warning path),
crash when an iloc access raises an uncaught IndexError, ok with the
computed latest price, change and percentage change otherwise. -/
inductive EvalOutcome where
  | noData
  | crash
  | ok (latestPrice change pctChange : ℚ)
deriving DecidableEq, Repr

/-- Models src/app.py lines 248-253 applied to the Close column:
latest = iloc(-1), prev = iloc(-2), change and percentage change as
computed at lines 252-253. -/
def singleTickerEval (close : List ℚ) : EvalOutcome :=
  if close.isEmpty then EvalOutcome.noData
  else
    match ilocNeg close 1, ilocNeg close 2 with
    | some latest, some prev =>
        EvalOutcome.ok latest (latest - prev) ((latest - prev) / prev * 100)
    | _, _ => EvalOutcome.crash

/-- Models src/app.py line 174: the sidebar turns the stored cost into
a cost basis only when it is positive. -/
def mkCostBasis (cost : ℚ) : Option ℚ := if 0 < cost then some cost else none

/-- Models the position card at src/app.py lines 266-271: the Python
truthiness test on cost_basis guards the profit-loss pair
(amount, percentage); the watch-only branch shows no such fields. -/
def singlePL (price : ℚ) (costBasis : Option ℚ) : Option (ℚ × ℚ) :=
  match costBasis with
  | some cb => if cb = 0 then none else some (price - cb, (price - cb) / cb * 100)
  | none => none

/-- Models src/app.py lines 209 and 281: the day count from today to
the fetched earnings date, dates abstracted as day numbers. -/
def daysToEarnings (eDate today : ℤ) : ℤ := eDate - today

/-- What the single-ticker earnings metric shows for the countdown at
src/app.py lines 279-284: the day count when non-negative, the
just-released label when negative, N/A when no date was fetched. -/
inductive EarningsDisplay where
  | na
  | daysAfter (d : ℤ)
  | justReleased
deriving DecidableEq, Repr

/-- Models the delta text of the earnings metric at src/app.py line
282: a non-negative countdown is shown as a day count, a negative one
as the just-released label. -/
def singleEarningsDisplay (eDate : Option ℤ) (today : ℤ) : EarningsDisplay :=
  match eDate with
  | none => EarningsDisplay.na
  | some e =>
      if 0 ≤ daysToEarnings e today then EarningsDisplay.daysAfter (daysToEarnings e today)
      else EarningsDisplay.justReleased

/-- The two trend badges produced at src/app.py lines 302-303. -/
inductive TrendJudgment where
  | aboveEMA20
  | belowEMA20
deriving DecidableEq, Repr

/-- Models src/app.py lines 302-303: the trend badge compares the
latest price with EMA 20 only. -/
def trendJudgment (price ema20 : ℚ) : TrendJudgment :=
  if ema20 < price then TrendJudgment.aboveEMA20 else TrendJudgment.belowEMA20

/-- The three trend outcomes named by the specification. -/
inductive SpecTrend where
  | bullish
  | bearishBelowLongTerm
  | rangeBound
deriving DecidableEq, Repr

/-- Transcribes the trend rule as the specification words it (a
three-way rule also consulting EMA 200), for comparison with the rule
the source implements. -/
def trendJudgmentSpec (price ema20 ema200 : ℚ) : SpecTrend :=
  if ema20 < price then SpecTrend.bullish
  else if price < ema200 then SpecTrend.bearishBelowLongTerm
  else SpecTrend.rangeBound

/-- One row of the stored portfolio table (columns Ticker, Cost, Type
of src/app.py). -/
structure PortfolioRow where
  ticker : String
  cost : ℚ
  ptype : String

/-- Models src/app.py lines 202-203: the radar profit-loss pair
(amount, percentage) defaults to zero when the cost is not positive. -/
def radarPL (p c : ℚ) : ℚ × ℚ :=
  (if 0 < c then p - c else 0, if 0 < c then (p - c) / c * 100 else 0)

/-- One row of the radar table built at src/app.py lines 213-221:
daysShown is the day count embedded in the displayed earnings string
(absent when the string is N/A), sortKey the hidden sorting column. -/
structure RadarRow where
  ticker : String
  cost : ℚ
  price : ℚ
  plVal : ℚ
  plPct : ℚ
  daysShown : Option ℤ
  sortKey : ℤ

/-- Models one iteration of the radar loop at src/app.py lines
195-221 for a portfolio row, given the fetched last close and the
fetched earnings date of that ticker. -/
def mkRadarRow (fetchClose : String → Option ℚ) (fetchEDate : String → Option ℤ)
    (today : ℤ) (row : PortfolioRow) : RadarRow :=
  let p := (fetchClose row.ticker).getD 0
  let pl := radarPL p row.cost
  match fetchEDate row.ticker with
  | none =>
      { ticker := row.ticker, cost := row.cost, price := p,
        plVal := pl.1, plPct := pl.2, daysShown := none, sortKey := 999 }
  | some e =>
      { ticker := row.ticker, cost := row.cost, price := p,
        plVal := pl.1, plPct := pl.2,
        daysShown := some (daysToEarnings e today),
        sortKey := daysToEarnings e today }

/-- The ordering used by sort_values on the hidden day column at
src/app.py line 224. -/
def radarLE (a b : RadarRow) : Prop := a.sortKey ≤ b.sortKey

instance : DecidableRel radarLE :=
  fun a b => inferInstanceAs (Decidable (a.sortKey ≤ b.sortKey))

instance : IsTotal RadarRow radarLE :=
  ⟨fun a b => Int.le_total a.sortKey b.sortKey⟩

instance : IsTrans RadarRow radarLE :=
  ⟨fun _ _ _ h1 h2 => le_trans h1 h2⟩

/-- Models the radar pipeline at src/app.py lines 189-224: keep the
Holding rows, build one radar row each, sort ascending by the hidden
day column. -/
def macroRadar (fetchClose : String → Option ℚ) (fetchEDate : String → Option ℤ)
    (today : ℤ) (portfolio : List PortfolioRow) : List RadarRow :=
  List.insertionSort radarLE
    ((portfolio.filter (fun r => r.ptype == "Holding")).map
      (mkRadarRow fetchClose fetchEDate today))

/-- The adjust=false exponential-smoothing contract for a span: same
length as the input, seeded by the first input value, and following
the recurrence with alpha = 2 / (span + 1) afterwards. -/
def SatisfiesEWMRec (span : ℕ) (close e : List ℚ) : Prop :=
  e.length = close.length ∧
  (close ≠ [] → e.getD 0 0 = close.getD 0 0) ∧
  ∀ i, i + 1 < close.length →
    e.getD (i + 1) 0 =
      (2 / ((span : ℚ) + 1)) * close.getD (i + 1) 0 +
        (1 - 2 / ((span : ℚ) + 1)) * e.getD i 0

/-- Concrete four-holding portfolio used by the radar ranking example
(earnings day counts 30, unknown, 5, 12), plus one Watchlist row that
the radar must ignore. -/
def exPortfolio : List PortfolioRow :=
  [⟨"A", 0, "Holding"⟩, ⟨"B", 0, "Holding"⟩, ⟨"C", 0, "Holding"⟩,
   ⟨"D", 0, "Holding"⟩, ⟨"W", 0, "Watchlist"⟩]

/-- Earnings-date fetch for the radar example: day 130 for A, none
for B, day 105 for C, day 112 for D, day 101 for W. -/
def exFetchEDate : String → Option ℤ :=
  fun t =>
    if t = "A" then some 130
    else if t = "C" then some 105
    else if t = "D" then some 112
    else if t = "W" then some 101
    else none

/-- Price fetch for the radar example: no price data. -/
def exFetchClose : String → Option ℚ := fun _ => none

/-- Today for the radar example, as a day number. -/
def exToday : ℤ := 100

/-! Length and recurrence lemmas for the adjust=false smoothing. -/

lemma ewmFrom_length (a : ℚ) :
    ∀ (xs : List ℚ) (s : ℚ), (ewmFrom a s xs).length = xs.length := by
  intro xs
  induction xs with
  | nil => intro s; rfl
  | cons x t ih => intro s; simp [ewmFrom, ih]

lemma ewm_length (a : ℚ) (xs : List ℚ) : (ewm a xs).length = xs.length := by
  cases xs with
  | nil => rfl
  | cons x t => simp [ewm, ewmFrom_length]

lemma ewmSpan_length (n : ℕ) (xs : List ℚ) : (ewmSpan n xs).length = xs.length :=
  ewm_length _ _

lemma ewmFrom_getD_succ (a : ℚ) :
    ∀ (xs : List ℚ) (s : ℚ) (i : ℕ), i + 1 < xs.length →
      (ewmFrom a s xs).getD (i + 1) 0 =
        emaStep a ((ewmFrom a s xs).getD i 0) (xs.getD (i + 1) 0) := by
  intro xs
  induction xs with
  | nil => intro s i h; simp at h
  | cons x t ih =>
      intro s i h
      cases i with
      | zero =>
          cases t with
          | nil => simp at h
          | cons y ys => simp [ewmFrom, emaStep]
      | succ j =>
          have hj : j + 1 < t.length := by
            simpa [List.length_cons] using Nat.lt_of_succ_lt_succ h
          simpa [ewmFrom] using ih (emaStep a s x) j hj

lemma ewm_getD_zero (a : ℚ) (xs : List ℚ) (h : xs ≠ []) :
    (ewm a xs).getD 0 0 = xs.getD 0 0 := by
  cases xs with
  | nil => exact absurd rfl h
  | cons x t => rfl

lemma ewm_getD_succ (a : ℚ) (xs : List ℚ) (i : ℕ) (h : i + 1 < xs.length) :
    (ewm a xs).getD (i + 1) 0 =
      a * xs.getD (i + 1) 0 + (1 - a) * (ewm a xs).getD i 0 := by
  cases xs with
  | nil => simp at h
  | cons x t =>
      cases i with
      | zero =>
          cases t with
          | nil => simp at h
          | cons y ys => simp [ewm, ewmFrom, emaStep]
      | succ j =>
          have hj : j + 1 < t.length := by
            simpa [List.length_cons] using Nat.lt_of_succ_lt_succ h
          have hrec := ewmFrom_getD_succ a t x j hj
          simpa [ewm, emaStep] using hrec

lemma ewm_spec (span : ℕ) (close : List ℚ) :
    SatisfiesEWMRec span close (ewmSpan span close) :=
  ⟨ewm_length _ _, fun h => ewm_getD_zero _ _ h, fun i hi => ewm_getD_succ _ _ i hi⟩

lemma zipWith_sub_getD :
    ∀ (as bs : List ℚ) (i : ℕ), i < as.length → i < bs.length →
      (List.zipWith (fun a b => a - b) as bs).getD i 0 = as.getD i 0 - bs.getD i 0 := by
  intro as
  induction as with
  | nil => intro bs i h1 _; simp at h1
  | cons a as ih =>
      intro bs i h1 h2
      cases bs with
      | nil => simp at h2
      | cons b bs =>
          cases i with
          | zero => simp
          | succ j =>
              have hj1 : j < as.length := Nat.lt_of_succ_lt_succ h1
              have hj2 : j < bs.length := Nat.lt_of_succ_lt_succ h2
              simpa using ih bs j hj1 hj2

lemma computeIndicators_ema20 (close : List ℚ) :
    (computeIndicators close).ema20 = ewmSpan 20 close := rfl

lemma computeIndicators_ema50 (close : List ℚ) :
    (computeIndicators close).ema50 = ewmSpan 50 close := rfl

lemma computeIndicators_ema200 (close : List ℚ) :
    (computeIndicators close).ema200 = ewmSpan 200 close := rfl

lemma computeIndicators_macd (close : List ℚ) :
    (computeIndicators close).macd =
      List.zipWith (fun a b => a - b) (ewmSpan 12 close) (ewmSpan 26 close) := rfl

lemma computeIndicators_signal (close : List ℚ) :
    (computeIndicators close).signal = ewmSpan 9 (computeIndicators close).macd := rfl

lemma computeIndicators_hist (close : List ℚ) :
    (computeIndicators close).hist =
      List.zipWith (fun a b => a - b)
        (computeIndicators close).macd (computeIndicators close).signal := rfl

lemma macd_length (close : List ℚ) :
    (computeIndicators close).macd.length = close.length := by
  rw [computeIndicators_macd]
  simp [List.length_zipWith, ewmSpan_length]

lemma signal_length (close : List ℚ) :
    (computeIndicators close).signal.length = close.length := by
  rw [computeIndicators_signal, ewmSpan_length, macd_length]

/-! Lemmas about the substring guard. -/

lemma hasSub_of_startsWith (n l : List Char) (h : startsWith n l = true) :
    hasSub n l = true := by
  cases l with
  | nil => simpa [hasSub] using h
  | cons c t => simp [hasSub, h]

lemma hasSub_append (n x l : List Char) (h : startsWith n l = true) :
    hasSub n (x ++ l) = true := by
  induction x with
  | nil => simpa using hasSub_of_startsWith n l h
  | cons a t ih => simp [hasSub, ih]

/-- C1: for every price series and each span in {20, 50, 200}, the EMA
column produced by get_stock_data satisfies the adjust=false
recurrence with alpha = 2 / (span + 1), seeded by the first close; and
for Close = [10, 12, 11] with span 2 the values are exactly
[10, 34/3, 100/9], which match 11.333333 and 11.111111 within 1e-6. -/
theorem C1_ema_adjust_false (close : List ℚ) :
    SatisfiesEWMRec 20 close (computeIndicators close).ema20 ∧
    SatisfiesEWMRec 50 close (computeIndicators close).ema50 ∧
    SatisfiesEWMRec 200 close (computeIndicators close).ema200 ∧
    ewmSpan 2 [10, 12, 11] = [10, 34/3, 100/9] ∧
    |34/3 - (11333333 / 1000000 : ℚ)| ≤ 1 / 1000000 ∧
    |100/9 - (11111111 / 1000000 : ℚ)| ≤ 1 / 1000000 := by
  refine ⟨?_, ?_, ?_, ?_, ?_, ?_⟩
  · rw [computeIndicators_ema20]; exact ewm_spec 20 close
  · rw [computeIndicators_ema50]; exact ewm_spec 50 close
  · rw [computeIndicators_ema200]; exact ewm_spec 200 close
  · norm_num [ewmSpan, ewm, ewmFrom, emaStep]
  · rw [abs_le]; constructor <;> norm_num
  · rw [abs_le]; constructor <;> norm_num

/-- C1 witness: the theorem applied to the series [10, 12, 11]. -/
theorem C1_ema_adjust_false_witness :
    (computeIndicators [10, 12, 11]).ema20.getD 0 0 = 10 ∧
    ewmSpan 2 [10, 12, 11] = [10, 34/3, 100/9] := by
  have h := C1_ema_adjust_false [10, 12, 11]
  refine ⟨?_, h.2.2.2.1⟩
  have h0 := h.1.2.1 (by simp)
  simpa using h0

/-- C2: for every non-empty price series, the MACD column is the
pointwise difference of the span-12 and span-26 EMAs of Close (both
satisfying the adjust=false recurrence, separate from the 20/50/200
columns), the Signal column is the span-9 adjust=false EMA of the
MACD column (so it is seeded by MACD[0], not Close[0]), and the Hist
column is the pointwise difference MACD - Signal. -/
theorem C2_macd_signal_histogram (close : List ℚ) (_hne : close ≠ []) :
    (∀ i, i < close.length →
      (computeIndicators close).macd.getD i 0 =
        (ewmSpan 12 close).getD i 0 - (ewmSpan 26 close).getD i 0) ∧
    SatisfiesEWMRec 12 close (ewmSpan 12 close) ∧
    SatisfiesEWMRec 26 close (ewmSpan 26 close) ∧
    SatisfiesEWMRec 9 (computeIndicators close).macd (computeIndicators close).signal ∧
    (∀ i, i < close.length →
      (computeIndicators close).hist.getD i 0 =
        (computeIndicators close).macd.getD i 0 -
          (computeIndicators close).signal.getD i 0) := by
  refine ⟨?_, ewm_spec 12 close, ewm_spec 26 close, ?_, ?_⟩
  · intro i hi
    rw [computeIndicators_macd]
    exact zipWith_sub_getD _ _ i (by rw [ewmSpan_length]; exact hi)
      (by rw [ewmSpan_length]; exact hi)
  · rw [computeIndicators_signal]
    exact ewm_spec 9 _
  · intro i hi
    rw [computeIndicators_hist]
    exact zipWith_sub_getD _ _ i (by rw [macd_length]; exact hi)
      (by rw [signal_length]; exact hi)

/-- C2 witness: the theorem applied to the series [10, 12, 11] at
index 0. -/
theorem C2_macd_signal_histogram_witness :
    (computeIndicators [10, 12, 11]).hist.getD 0 0 =
      (computeIndicators [10, 12, 11]).macd.getD 0 0 -
        (computeIndicators [10, 12, 11]).signal.getD 0 0 := by
  exact (C2_macd_signal_histogram [10, 12, 11] (by simp)).2.2.2.2 0 (by simp)

/-- C3 counterexample: on a one-bar series the single-ticker block
does not fail with a typed InsufficientHistory value; the access
prev = df.iloc[-2] at src/app.py line 250 raises an uncaught
IndexError, modelled as the crash outcome. -/
theorem C3_counterexample : singleTickerEval [10] = EvalOutcome.crash := by decide

/-- C3 amended: with at least two bars the block returns the last
close, the day-over-day change and its percentage; an empty fetch
takes the no-data warning path; a one-bar series crashes with an
uncaught IndexError instead of a typed InsufficientHistory error. -/
theorem C3_position_eval (close : List ℚ) :
    (2 ≤ close.length →
      singleTickerEval close =
        EvalOutcome.ok (close.getD (close.length - 1) 0)
          (close.getD (close.length - 1) 0 - close.getD (close.length - 2) 0)
          ((close.getD (close.length - 1) 0 - close.getD (close.length - 2) 0) /
            close.getD (close.length - 2) 0 * 100)) ∧
    (close = [] → singleTickerEval close = EvalOutcome.noData) ∧
    (close.length = 1 → singleTickerEval close = EvalOutcome.crash) := by
  refine ⟨?_, ?_, ?_⟩
  · intro h2
    have hne : close.isEmpty = false := by
      cases close with
      | nil => simp at h2
      | cons a t => rfl
    have h1 : ilocNeg close 1 = some (close.getD (close.length - 1) 0) := by
      unfold ilocNeg
      rw [if_pos ⟨le_refl 1, by omega⟩]
    have hsnd : ilocNeg close 2 = some (close.getD (close.length - 2) 0) := by
      unfold ilocNeg
      rw [if_pos ⟨by norm_num, h2⟩]
    simp [singleTickerEval, hne, h1, hsnd]
  · intro h; subst h; rfl
  · intro h1
    cases close with
    | nil => simp at h1
    | cons a t =>
        have ht : t = [] := by
          cases t with
          | nil => rfl
          | cons b s => simp at h1
        subst ht
        rfl

/-- C3 witness: the theorem applied to the two-bar series [10, 12]. -/
theorem C3_position_eval_witness :
    singleTickerEval [10, 12] = EvalOutcome.ok 12 2 20 := by
  have h := (C3_position_eval [10, 12]).1 (by norm_num)
  norm_num [List.getD] at h
  exact h

/-- C4 counterexample: with a cost of 0 the single-ticker card omits
the profit-loss pair, but the radar row reports both profit-loss
fields as zero rather than omitting them. -/
theorem C4_counterexample :
    singlePL 10 (mkCostBasis 0) = none ∧
    mkRadarRow (fun _ => some 10) (fun _ => none) 0 ⟨"T", 0, "Holding"⟩ =
      { ticker := "T", cost := 0, price := 10, plVal := 0, plPct := 0,
        daysShown := none, sortKey := 999 } := by
  exact ⟨rfl, rfl⟩

/-- C4 amended: with a positive cost basis both views compute
profitLossAmount = latestPrice - costBasis and the matching
percentage; with an absent or non-positive cost the single-ticker
view omits the pair entirely while the radar reports it as (0, 0). -/
theorem C4_cost_basis (price cost : ℚ) :
    (0 < cost →
      mkCostBasis cost = some cost ∧
      singlePL price (mkCostBasis cost) =
        some (price - cost, (price - cost) / cost * 100) ∧
      radarPL price cost = (price - cost, (price - cost) / cost * 100)) ∧
    (cost ≤ 0 →
      mkCostBasis cost = none ∧
      singlePL price (mkCostBasis cost) = none ∧
      radarPL price cost = (0, 0)) := by
  constructor
  · intro h
    have hne : cost ≠ 0 := ne_of_gt h
    refine ⟨by simp [mkCostBasis, h], ?_, by simp [radarPL, h]⟩
    simp [mkCostBasis, singlePL, h, hne]
  · intro h
    have hnot : ¬ 0 < cost := not_lt.mpr h
    exact ⟨by simp [mkCostBasis, hnot], by simp [mkCostBasis, singlePL, hnot],
      by simp [radarPL, hnot]⟩

/-- C4 witness: cost basis 100 and latest price 120 give the pair
(20, 20), the +20.00 percent of the specification example. -/
theorem C4_cost_basis_witness :
    singlePL 120 (mkCostBasis 100) = some (20, 20) := by
  have h := ((C4_cost_basis 120 100).1 (by norm_num)).2.1
  norm_num at h
  exact h

/-- C5: the radar ranking sorts exactly the Holding rows of the
portfolio ascending by the hidden day column, whose value is the
earnings day count when known and the sentinel 999 when unknown; on
holdings with day counts 30, unknown, 5, 12 (and one Watchlist row)
the ranked order is 5, 12, 30, unknown with the Watchlist row
excluded. -/
theorem C5_radar_ranking
    (fc : String → Option ℚ) (fe : String → Option ℤ) (today : ℤ)
    (portfolio : List PortfolioRow) :
    List.Sorted radarLE (macroRadar fc fe today portfolio) ∧
    (macroRadar fc fe today portfolio).Perm
      ((portfolio.filter (fun r => r.ptype == "Holding")).map
        (mkRadarRow fc fe today)) ∧
    (macroRadar exFetchClose exFetchEDate exToday exPortfolio).map RadarRow.daysShown
      = [some 5, some 12, some 30, none] ∧
    (macroRadar exFetchClose exFetchEDate exToday exPortfolio).map RadarRow.ticker
      = ["C", "D", "A", "B"] := by
  refine ⟨?_, ?_, by decide, by decide⟩
  · exact List.sorted_insertionSort radarLE _
  · exact List.perm_insertionSort radarLE _

/-- C6 counterexample: with a single share-count snapshot and a
truthy sharesOutstanding in the info fallback, get_shares_data
returns the value 0.0 (displayed as a flat trend) instead of an
absent, indeterminate result. -/
theorem C6_counterexample : get_shares_yoy [100] true = some 0 := by decide

/-- C6 amended: with five or more snapshots the trend compares the
latest to the snapshot four periods back, with two to four snapshots
to the oldest, as (latest - reference) / reference * 100, so the
history [100, 100, 95, 95, 90] yields -10; with fewer than two
snapshots the result is absent only when the info fallback lacks
sharesOutstanding, and otherwise is reported as the value 0. -/
theorem C6_shares_trend (shares : List ℚ) (hasInfo : Bool) :
    (5 ≤ shares.length →
      get_shares_yoy shares hasInfo =
        some ((shares.getD (shares.length - 1) 0 - shares.getD (shares.length - 5) 0) /
          shares.getD (shares.length - 5) 0 * 100)) ∧
    (2 ≤ shares.length → shares.length ≤ 4 →
      get_shares_yoy shares hasInfo =
        some ((shares.getD (shares.length - 1) 0 - shares.getD 0 0) /
          shares.getD 0 0 * 100)) ∧
    (shares.length < 2 →
      get_shares_yoy shares hasInfo = if hasInfo then some 0 else none) ∧
    get_shares_yoy [100, 100, 95, 95, 90] hasInfo = some (-10) := by
  refine ⟨?_, ?_, ?_, ?_⟩
  · intro h5
    have h2 : 2 ≤ shares.length := by omega
    simp [get_shares_yoy, h2, h5]
  · intro h2 h4
    have h5 : ¬ 5 ≤ shares.length := by omega
    simp [get_shares_yoy, h2, h5]
  · intro h
    have h2 : ¬ 2 ≤ shares.length := by omega
    simp [get_shares_yoy, h2]
  · norm_num [get_shares_yoy, List.getD]

/-- C6 witness: a two-snapshot history [100, 50] compares latest to
oldest and yields -50. -/
theorem C6_shares_trend_witness :
    get_shares_yoy [100, 50] false = some (-50) := by
  have h := (C6_shares_trend [100, 50] false).2.1 (by norm_num) (by norm_num)
  norm_num [List.getD] at h
  exact h

/-- C7 counterexample: with an earnings date three days in the past,
the radar row embeds the negative countdown -3 in its displayed
earnings string and uses -3 as its sort key, instead of reporting the
countdown as unknown or stale. -/
theorem C7_counterexample :
    (mkRadarRow exFetchClose (fun _ => some 97) 100 ⟨"T", 0, "Holding"⟩).daysShown
      = some (-3) ∧
    (mkRadarRow exFetchClose (fun _ => some 97) 100 ⟨"T", 0, "Holding"⟩).sortKey
      = -3 := by
  exact ⟨rfl, rfl⟩

/-- C7 amended: daysToEarnings is the calendar-day difference of the
earnings date and today; the single-ticker metric shows a negative
countdown as the just-released label rather than a negative number,
but the radar exposes the fetched difference verbatim, negative
values included, both in the displayed string and in the sort key,
and uses 999 only when no date was fetched. -/
theorem C7_earnings_countdown (e today : ℤ) (fc : String → Option ℚ)
    (row : PortfolioRow) :
    daysToEarnings e today = e - today ∧
    (0 ≤ daysToEarnings e today →
      singleEarningsDisplay (some e) today =
        EarningsDisplay.daysAfter (daysToEarnings e today)) ∧
    (daysToEarnings e today < 0 →
      singleEarningsDisplay (some e) today = EarningsDisplay.justReleased) ∧
    singleEarningsDisplay none today = EarningsDisplay.na ∧
    (mkRadarRow fc (fun _ => some e) today row).daysShown =
      some (daysToEarnings e today) ∧
    (mkRadarRow fc (fun _ => some e) today row).sortKey = daysToEarnings e today ∧
    (mkRadarRow fc (fun _ => none) today row).daysShown = none ∧
    (mkRadarRow fc (fun _ => none) today row).sortKey = 999 := by
  refine ⟨rfl, ?_, ?_, rfl, rfl, rfl, rfl, rfl⟩
  · intro h
    simp only [singleEarningsDisplay]
    rw [if_pos h]
  · intro h
    simp only [singleEarningsDisplay]
    rw [if_neg (not_le.mpr h)]

/-- C7 witness: earnings day 97 with today 100 is three days past and
shows as just released in the single-ticker view. -/
theorem C7_earnings_countdown_witness :
    singleEarningsDisplay (some 97) 100 = EarningsDisplay.justReleased :=
  (C7_earnings_countdown 97 100 exFetchClose ⟨"T", 0, "Holding"⟩).2.2.1 (by decide)

/-- C8: for every ticker that is caret-prefixed or -USD-suffixed, all
four fundamentals helpers return their absent value regardless of
what any fetch would have produced, so no fetch result is consulted. -/
theorem C8_fundamentals_short_circuit (t : String)
    (h : startsWith ("^".toList) t.toList = true ∨
      ∃ p, t.toList = p ++ ("-USD".toList)) :
    ∀ (shares : List ℚ) (hasInfo : Bool) (eDate : Option ℤ)
      (inst shortFrac : Option ℚ) (holders : Option (List String)),
      get_shares_data t shares hasInfo = (none, none) ∧
      get_earnings_date t eDate = none ∧
      get_smart_money_data t inst shortFrac = (none, none) ∧
      get_institutional_holders t holders = none := by
  have hna : notApplicable t = true := by
    rcases h with h | ⟨p, hp⟩
    · have hc : pyIn "^" t = true := hasSub_of_startsWith _ _ h
      simp [notApplicable, hc]
    · have hc : pyIn "USD" t = true := by
        unfold pyIn
        rw [hp, show ("-USD".toList : List Char) = ('-' :: []) ++ "USD".toList from rfl,
          ← List.append_assoc]
        exact hasSub_append _ _ _ (by decide)
      simp [notApplicable, hc]
  intro shares hasInfo eDate inst shortFrac holders
  refine ⟨?_, ?_, ?_, ?_⟩ <;>
    simp [get_shares_data, get_earnings_date, get_smart_money_data,
      get_institutional_holders, hna]

/-- C8 witness: the theorem applied to the caret-prefixed index
ticker and to the -USD-suffixed crypto pair of the specification. -/
theorem C8_fundamentals_short_circuit_witness :
    get_earnings_date "^GSPC" (some 5) = none ∧
    get_smart_money_data "BTC-USD" (some 1) (some 1) = (none, none) := by
  constructor
  · exact (C8_fundamentals_short_circuit "^GSPC" (Or.inl (by decide))
      [] false (some 5) none none none).2.1
  · exact (C8_fundamentals_short_circuit "BTC-USD"
      (Or.inr ⟨"BTC".toList, by decide⟩) [] false none (some 1) (some 1) none).2.2.1

/-- C9 counterexample: at latestPrice 100, EMA20 110, EMA200 90 the
claimed three-way rule yields the range-bound outcome and its bearish
outcome requires the price below EMA200, yet the source produces the
same below-EMA20 badge there as at price 80, where the claimed rule
is bearish: the code judgment has only two outcomes and ignores
EMA200 entirely. -/
theorem C9_counterexample :
    trendJudgmentSpec 100 110 90 = SpecTrend.rangeBound ∧
    trendJudgmentSpec 80 110 90 = SpecTrend.bearishBelowLongTerm ∧
    trendJudgment 100 110 = TrendJudgment.belowEMA20 ∧
    trendJudgment 80 110 = TrendJudgment.belowEMA20 := by
  exact ⟨by decide, by decide, by decide, by decide⟩

/-- C9 amended: the trend judgment is a two-way rule on EMA20 alone:
price above EMA20 gives the bullish short-term badge and every other
case gives the broke-below-EMA20 badge, so exactly one of these two
judgments is produced and EMA200 plays no part. -/
theorem C9_trend_two_way (price ema20 : ℚ) :
    (ema20 < price → trendJudgment price ema20 = TrendJudgment.aboveEMA20) ∧
    (¬ ema20 < price → trendJudgment price ema20 = TrendJudgment.belowEMA20) ∧
    (trendJudgment price ema20 = TrendJudgment.aboveEMA20 ∨
      trendJudgment price ema20 = TrendJudgment.belowEMA20) := by
  by_cases h : ema20 < price
  · exact ⟨fun _ => by simp [trendJudgment, h], fun hc => absurd h hc,
      Or.inl (by simp [trendJudgment, h])⟩
  · exact ⟨fun hc => absurd hc h, fun _ => by simp [trendJudgment, h],
      Or.inr (by simp [trendJudgment, h])⟩

/-- C9 witness: price 120 above EMA20 100 gives the bullish badge. -/
theorem C9_trend_two_way_witness :
    trendJudgment 120 100 = TrendJudgment.aboveEMA20 :=
  (C9_trend_two_way 120 100).1 (by norm_num)

/-- C10: every ticker whose text contains a caret or the letters USD
anywhere is treated as not applicable by all four fundamentals
helpers, which return their absent value for every possible fetch
result; this is strictly broader than the caret-prefix and
-USD-suffix convention, since the ordinary symbol USDP matches the
guard while being neither caret-prefixed nor -USD-suffixed. -/
theorem C10_usd_substring_guard (t : String)
    (h : pyIn "^" t = true ∨ pyIn "USD" t = true) :
    notApplicable t = true ∧
    (∀ (shares : List ℚ) (hasInfo : Bool),
      get_shares_data t shares hasInfo = (none, none)) ∧
    (∀ eDate, get_earnings_date t eDate = none) ∧
    (∀ inst shortFrac, get_smart_money_data t inst shortFrac = (none, none)) ∧
    (∀ holders, get_institutional_holders t holders = none) ∧
    pyIn "USD" "USDP" = true ∧
    startsWith ("^".toList) ("USDP".toList) = false ∧
    (∀ p : List Char, "USDP".toList ≠ p ++ ("-USD".toList)) := by
  have hna : notApplicable t = true := by
    rcases h with h | h <;> simp [notApplicable, h]
  refine ⟨hna, ?_, ?_, ?_, ?_, by decide, by decide, ?_⟩
  · intro shares hasInfo; simp [get_shares_data, hna]
  · intro eDate; simp [get_earnings_date, hna]
  · intro inst shortFrac; simp [get_smart_money_data, hna]
  · intro holders; simp [get_institutional_holders, hna]
  · intro p hp
    have hlen : p.length + ("-USD".toList).length = ("USDP".toList).length := by
      rw [← List.length_append, ← hp]
    have h4 : ("-USD".toList).length = 4 := by decide
    have h4b : ("USDP".toList).length = 4 := by decide
    have hp0 : p = [] := List.length_eq_zero.mp (by omega)
    subst hp0
    rw [List.nil_append] at hp
    exact absurd hp (by decide)

/-- C10 witness: the theorem applied to the ordinary equity symbol
USDP, which contains USD without being an index or crypto pair. -/
theorem C10_usd_substring_guard_witness :
    notApplicable "USDP" = true ∧ get_earnings_date "USDP" (some 7) = none := by
  have h := C10_usd_substring_guard "USDP" (Or.inr (by decide))
  exact ⟨h.1, h.2.2.1 (some 7)⟩

end TechnicalSniper
